import Mathlib

/-!
Shallow embedding of the price-ensemble engine of `foundyouadeal`
(`src/unnamed/part_006`, class `PricingAgent`, with the older variant in
`src/pricing3.ts` where noted).  JavaScript numbers are modelled as
rationals (`ℚ`); the JS `NaN` sentinel is modelled by `Option ℚ` with
`none` playing the role of NaN, and the numeric literal `0.2` of the
outlier guard is taken at its ideal rational value `1/5`.  Strings
returned by the remote model backends are ordinary Lean strings; remote
calls that may throw are modelled by an explicit outcome type.
-/

namespace FoundYouADeal

/- ------------------------------------------------------------------
   Number extraction (`parsePrice`, `src/unnamed/part_006` lines 41-61)
   ------------------------------------------------------------------ -/

/-- Numeric value of a digit character. -/
def digitVal (c : Char) : ℕ := c.toNat - ('0').toNat

/-- Value of a digit string read in base 10, as `parseFloat` reads the
integer part of a numeral. -/
def natOfDigits (ds : List Char) : ℕ :=
  ds.foldl (fun a c => 10 * a + digitVal c) 0

/-- Value of the matched token `ds "." fs` (with `fs = []` for a pure
integer token), as `parseFloat` evaluates it.  Overflow to `Infinity`
cannot occur over `ℚ`, so the `Number.isFinite` check of the source
never fires in this model. -/
def tokenValue (ds fs : List Char) : ℚ :=
  (natOfDigits ds : ℚ) + (natOfDigits fs : ℚ) / 10 ^ fs.length

/-- Fractional-part digits of the regex `[0-9]+(\.[0-9]+)?` after the
integer digits have been consumed: a fraction is taken only when a dot
is immediately followed by a digit, and then greedily. -/
def fracDigits : List Char → List Char
  | c :: d :: r =>
    if c = '.' ∧ d.isDigit then (d :: r).takeWhile Char.isDigit else []
  | _ => []

/-- Leftmost match of `[0-9]+(\.[0-9]+)?` and its numeric value: scan to
the first digit, take the maximal digit run as integer part, then an
optional dot-plus-digits fraction.  Returns `none` when the text holds
no digit at all. -/
def findFirstNumber : List Char → Option ℚ
  | [] => none
  | c :: cs =>
    if c.isDigit then
      some (tokenValue ((c :: cs).takeWhile Char.isDigit)
        (fracDigits ((c :: cs).dropWhile Char.isDigit)))
    else findFirstNumber cs

/-- Function `parsePrice` of `src/unnamed/part_006` lines 41-61: `NaN`
(here `none`) on empty input, otherwise the value of the first substring
matching `[0-9]+(\.[0-9]+)?`, or `NaN` when there is none. -/
def parsePrice (s : String) : Option ℚ :=
  if s.data = [] then none else findFirstNumber s.data

/- ------------------------------------------------------------------
   Median and outlier guard (`src/unnamed/part_006` lines 63-82)
   ------------------------------------------------------------------ -/

/-- Ascending sort `[...values].sort((a, b) => a - b)` of the source. -/
def sortAsc (values : List ℚ) : List ℚ := values.insertionSort (· ≤ ·)

/-- Function `median` of `src/unnamed/part_006` lines 63-71 (identical
in `src/pricing3.ts` lines 35-43): `0` for the empty list, otherwise
sort ascending and take the middle element (odd length) or the mean of
the two middle elements (even length); the `sorted` and `mid` local
variables of the source are inlined. -/
def median (values : List ℚ) : ℚ :=
  if values.length = 0 then 0
  else if (sortAsc values).length % 2 = 0 then
    ((sortAsc values).getD ((sortAsc values).length / 2 - 1) 0 +
      (sortAsc values).getD ((sortAsc values).length / 2) 0) / 2
  else (sortAsc values).getD ((sortAsc values).length / 2) 0

/-- Function `isReasonableSignal` of `src/unnamed/part_006` lines 73-82.
The JS test `!candidate || !Number.isFinite(candidate) || candidate <= 0`
collapses to `candidate ≤ 0` over `ℚ` (a `NaN` candidate is screened out
by the caller before this point, and every rational is finite); the
`med` local variable of the source is inlined, and the literal `0.2` is
the rational `1 / 5`. -/
def isReasonableSignal (candidate : ℚ) (baseline : List ℚ) : Bool :=
  if candidate ≤ 0 then false
  else if baseline.length = 0 then true
  else if median baseline = 0 then true
  else if candidate < median baseline * (1 / 5) ∨
      median baseline * 5 < candidate then false
  else true

/- ------------------------------------------------------------------
   Neighbor quality filtering (`src/unnamed/part_006` lines 449-503)
   ------------------------------------------------------------------ -/

/-- Row shape returned by the vector similarity query of `getGPTPrice`. -/
structure Neighbor where
  title : String
  description : String
  price : ℚ
  distance : ℚ

/-- Constant `GOOD_NEIGHBOR_MAX_DISTANCE` of `src/unnamed/part_006`
line 450. -/
def GOOD_NEIGHBOR_MAX_DISTANCE : ℚ := 1 / 2

/-- The `goodNeighbors` filter of `getGPTPrice` (lines 452-457) with the
distance bound abstracted: keep the neighbors whose distance is at most
the bound.  The JS `typeof`/`Number.isFinite` checks always hold over
`ℚ`. -/
def goodNeighborsWithin (bound : ℚ) (ns : List Neighbor) : List Neighbor :=
  ns.filter (fun p => p.distance ≤ bound)

/-- The `goodNeighbors` list of `getGPTPrice` at the source's constant
bound. -/
def goodNeighbors (ns : List Neighbor) : List Neighbor :=
  goodNeighborsWithin GOOD_NEIGHBOR_MAX_DISTANCE ns

/-- The `prices` list of `getGPTPrice` (lines 496-498): the strictly
positive prices of the retained neighbors (over `ℚ`, the JS
`Number(p.price || 0)` wrapper is the identity on the values the
positivity filter keeps). -/
def neighborPrices (good : List Neighbor) : List ℚ :=
  (good.map Neighbor.price).filter (fun n => 0 < n)

/-- The `neighborAveragePrice` of `getGPTPrice` (lines 500-503):
arithmetic mean of the retained positive prices, `0` when there are
none. -/
def neighborAveragePrice (good : List Neighbor) : ℚ :=
  if 0 < (neighborPrices good).length then
    (neighborPrices good).sum / ((neighborPrices good).length : ℚ)
  else 0

/- ------------------------------------------------------------------
   Perplexity branch (`src/unnamed/part_006` lines 220-338)
   ------------------------------------------------------------------ -/

/-- Outcome of one remote chat-completion call: the call either throws
or yields a reply already normalised to a plain string (the source's
string-or-array normalisation). -/
inductive CallOutcome where
  | throwErr : CallOutcome
  | reply : String → CallOutcome

/-- The retry trigger `!Number.isFinite(parsed) || parsed <= 0` of
`getPerplexityPrice` line 282, negated: a parse is usable when it
produced a finite, strictly positive number. -/
def usableParse : Option ℚ → Bool
  | none => false
  | some q => decide (0 < q)

/-- Method `getPerplexityPrice` of `src/unnamed/part_006` lines 220-338
as a function of the feature flags and of the outcomes of the at most
two Sonar calls.  The first component is the returned price (`none` is
NaN); the second counts the model calls actually made.  A throwing call
is caught by the surrounding `try` and yields NaN. -/
def getPerplexityPrice (enabled hasKey : Bool) (first second : CallOutcome) :
    Option ℚ × ℕ :=
  if enabled = false then (none, 0)
  else if hasKey = false then (none, 0)
  else
    match first with
    | .throwErr => (none, 1)
    | .reply r1 =>
      if usableParse (parsePrice r1) then (parsePrice r1, 1)
      else
        match second with
        | .throwErr => (none, 2)
        | .reply r2 => (parsePrice r2, 2)

/- ------------------------------------------------------------------
   Ensemble fusion (`predictPrice`, `src/unnamed/part_006` lines 586-686)
   ------------------------------------------------------------------ -/

/-- Inputs reaching the fusion stage of `predictPrice` (lines 591-598):
the prices produced by the three awaited branches plus the neighbor
average carried inside the GPT branch result.  `neighborAvg = none`
models the JS `null`; for the raw Perplexity price `none` models `NaN`
(the only non-finite value that branch can produce). -/
structure EnsembleInputs where
  llamaPrice : ℚ
  gptPrice : ℚ
  neighborAvg : Option ℚ
  rawPerplexityPrice : Option ℚ

/-- The `baselineSignals` list of `predictPrice` (lines 601-604): the
positive prices among Llama, GPT and the neighbor average, in push
order.  The JS truthiness test `neighborAvg && neighborAvg > 0` holds
exactly for `some q` with `0 < q`. -/
def baselineSignals (i : EnsembleInputs) : List ℚ :=
  (if 0 < i.llamaPrice then [i.llamaPrice] else []) ++
    (if 0 < i.gptPrice then [i.gptPrice] else []) ++
      (match i.neighborAvg with
       | some q => if 0 < q then [q] else []
       | none => [])

/-- The sanity-checked Perplexity price of `predictPrice` (lines
607-618): `NaN` (`none`) becomes `0`, and a finite value failing
`isReasonableSignal` against the baseline becomes `0`. -/
def guardedPerplexity (i : EnsembleInputs) : ℚ :=
  match i.rawPerplexityPrice with
  | none => 0
  | some q => if isReasonableSignal q (baselineSignals i) then q else 0

/-- The `signals` list of `predictPrice` (lines 631-635): the baseline
signals followed by the guarded Perplexity price when positive. -/
def signals (i : EnsembleInputs) : List ℚ :=
  baselineSignals i ++
    (if 0 < guardedPerplexity i then [guardedPerplexity i] else [])

/-- The fusion ladder of `predictPrice` (lines 637-668), returning the
unrounded final price together with the logged method label. -/
def fusion (i : EnsembleInputs) : ℚ × String :=
  if 2 ≤ (signals i).length then
    (median (signals i),
      if (signals i).length = 4 then
        "Median of Llama + GPT + neighbor avg + Perplexity"
      else if (signals i).length = 3 then "Median of three signals"
      else "Median of available signals")
  else if 0 < i.llamaPrice then (i.llamaPrice, "Llama only")
  else if 0 < i.gptPrice then (i.gptPrice, "GPT only")
  else if 0 < guardedPerplexity i then (guardedPerplexity i, "Perplexity only")
  else (0, "All failed")

/-- The unrounded fused price (the local `finalPrice` variable of
`predictPrice` before the final rounding). -/
def fusedPrice (i : EnsembleInputs) : ℚ := (fusion i).1

/-- The logged `method` label of `predictPrice`.  It is written to the
console only; the returned record does not carry it. -/
def fusionMethod (i : EnsembleInputs) : String := (fusion i).2

/-- Rounding `Math.round(x * 100) / 100` of line 683.  JS `Math.round`
rounds half toward positive infinity, i.e. it is `⌊x + 1/2⌋`. -/
def jsRound2 (q : ℚ) : ℚ := (⌊q * 100 + 1 / 2⌋ : ℚ) / 100

/-- Record returned by `predictPrice` (interface `PricePrediction` of
`src/src/lib/types.ts` plus the `perplexityPrice` field added at line
682). -/
structure PricePrediction where
  llamaPrice : ℚ
  gptPrice : ℚ
  perplexityPrice : ℚ
  finalPrice : ℚ

/-- The value returned by `predictPrice` (lines 678-685) as a function
of the branch results. -/
def predictPrice (i : EnsembleInputs) : PricePrediction :=
  { llamaPrice := i.llamaPrice
    gptPrice := i.gptPrice
    perplexityPrice := guardedPerplexity i
    finalPrice := jsRound2 (fusedPrice i) }

/- ------------------------------------------------------------------
   Exception structure of the GPT branch (`src/unnamed/part_006`
   lines 192-213, 343-581, 591-595)
   ------------------------------------------------------------------ -/

/-- Outcome of an awaited sub-computation: it either throws or returns
a value. -/
inductive Outcome (α : Type) where
  | err : Outcome α
  | ok : α → Outcome α

/-- Result record of `getGPTPrice` (type `GPTPriceResult`, lines
28-33). -/
structure GPTPriceResult where
  price : ℚ
  neighborAveragePrice : Option ℚ
  neighborCount : ℕ
  topDistance : Option ℚ

/-- Method `getSimpleGPTPrice` (lines 192-213): a single OpenAI call
with no `try`/`catch` of its own, so a throwing call propagates
(`Except.error`); a reply is parsed and a failed parse becomes `0`. -/
def getSimpleGPTPrice (call : Outcome String) : Except Unit ℚ :=
  match call with
  | .err => .error ()
  | .ok s =>
    .ok (match parsePrice s with
         | some q => q
         | none => 0)

/-- Method `getGPTPrice` (lines 343-581) at the level of its exception
structure: the whole `try` body is abstracted as one outcome, and the
`catch` block (lines 570-580) calls `getSimpleGPTPrice`, whose own
failure escapes the `catch` block and rejects the branch. -/
def getGPTPriceRun (tryBody : Outcome GPTPriceResult)
    (fallbackCall : Outcome String) : Except Unit GPTPriceResult :=
  match tryBody with
  | .ok r => .ok r
  | .err =>
    match getSimpleGPTPrice fallbackCall with
    | .error e => .error e
    | .ok p => .ok ⟨p, none, 0, none⟩

/-- The `Promise.all` fan-in of `predictPrice` (lines 591-595): the
Llama and Perplexity branches are total (their `catch` blocks return
`0` and `NaN`), but a rejection of the GPT branch rejects the joined
promise and propagates out of `predictPrice`, which has no `try` of its
own. -/
def predictPriceRun (llamaPrice : ℚ) (tryBody : Outcome GPTPriceResult)
    (fallbackCall : Outcome String) (perp : Option ℚ) :
    Except Unit PricePrediction :=
  match getGPTPriceRun tryBody fallbackCall with
  | .error e => .error e
  | .ok g =>
    .ok (predictPrice ⟨llamaPrice, g.price, g.neighborAveragePrice, perp⟩)

end FoundYouADeal

namespace FoundYouADeal

/- ------------------------------------------------------------------
   Helper lemmas about sorting and the median
   ------------------------------------------------------------------ -/

lemma getD_mem_of_lt {l : List ℚ} {n : ℕ} (h : n < l.length) :
    l.getD n 0 ∈ l := by
  rw [List.getD_eq_getElem l 0 h]
  exact List.getElem_mem h

lemma length_sortAsc (l : List ℚ) : (sortAsc l).length = l.length :=
  List.length_insertionSort _ l

lemma mem_of_mem_sortAsc {l : List ℚ} {x : ℚ} (h : x ∈ sortAsc l) : x ∈ l :=
  (List.perm_insertionSort _ l).mem_iff.mp h

lemma le_median {l : List ℚ} {m : ℚ} (hne : l ≠ []) (hm : ∀ x ∈ l, m ≤ x) :
    m ≤ median l := by
  have hlen0 : ¬ l.length = 0 := by simpa [List.length_eq_zero] using hne
  have hmem : ∀ n : ℕ, n < (sortAsc l).length → m ≤ (sortAsc l).getD n 0 :=
    fun n hn => hm _ (mem_of_mem_sortAsc (getD_mem_of_lt hn))
  have hpos : 0 < (sortAsc l).length := by rw [length_sortAsc]; omega
  unfold median
  rw [if_neg hlen0]
  by_cases hpar : (sortAsc l).length % 2 = 0
  · rw [if_pos hpar]
    have h1 : (sortAsc l).length / 2 < (sortAsc l).length :=
      Nat.div_lt_self hpos (by norm_num)
    have h2 : (sortAsc l).length / 2 - 1 < (sortAsc l).length := by omega
    have hb1 := hmem _ h1
    have hb2 := hmem _ h2
    linarith
  · rw [if_neg hpar]
    exact hmem _ (Nat.div_lt_self hpos (by norm_num))

lemma median_le {l : List ℚ} {M : ℚ} (hne : l ≠ []) (hM : ∀ x ∈ l, x ≤ M) :
    median l ≤ M := by
  have hlen0 : ¬ l.length = 0 := by simpa [List.length_eq_zero] using hne
  have hmem : ∀ n : ℕ, n < (sortAsc l).length → (sortAsc l).getD n 0 ≤ M :=
    fun n hn => hM _ (mem_of_mem_sortAsc (getD_mem_of_lt hn))
  have hpos : 0 < (sortAsc l).length := by rw [length_sortAsc]; omega
  unfold median
  rw [if_neg hlen0]
  by_cases hpar : (sortAsc l).length % 2 = 0
  · rw [if_pos hpar]
    have h1 : (sortAsc l).length / 2 < (sortAsc l).length :=
      Nat.div_lt_self hpos (by norm_num)
    have h2 : (sortAsc l).length / 2 - 1 < (sortAsc l).length := by omega
    have hb1 := hmem _ h1
    have hb2 := hmem _ h2
    linarith
  · rw [if_neg hpar]
    exact hmem _ (Nat.div_lt_self hpos (by norm_num))

/- ------------------------------------------------------------------
   Helper lemmas about the fusion ladder
   ------------------------------------------------------------------ -/

lemma fusedPrice_def (i : EnsembleInputs) :
    fusedPrice i =
      if 2 ≤ (signals i).length then median (signals i)
      else if 0 < i.llamaPrice then i.llamaPrice
      else if 0 < i.gptPrice then i.gptPrice
      else if 0 < guardedPerplexity i then guardedPerplexity i
      else 0 := by
  unfold fusedPrice fusion
  split_ifs <;> rfl

lemma fusionMethod_def (i : EnsembleInputs) :
    fusionMethod i =
      if 2 ≤ (signals i).length then
        (if (signals i).length = 4 then
          "Median of Llama + GPT + neighbor avg + Perplexity"
        else if (signals i).length = 3 then "Median of three signals"
        else "Median of available signals")
      else if 0 < i.llamaPrice then "Llama only"
      else if 0 < i.gptPrice then "GPT only"
      else if 0 < guardedPerplexity i then "Perplexity only"
      else "All failed" := by
  unfold fusionMethod fusion
  split_ifs <;> rfl

lemma baselineSignals_pos (i : EnsembleInputs) :
    ∀ x ∈ baselineSignals i, 0 < x := by
  intro x hx
  unfold baselineSignals at hx
  simp only [List.mem_append] at hx
  rcases hx with (h | h) | h
  · split_ifs at h with hc
    · simp only [List.mem_singleton] at h; exact h ▸ hc
    · simp at h
  · split_ifs at h with hc
    · simp only [List.mem_singleton] at h; exact h ▸ hc
    · simp at h
  · revert h
    cases hna : i.neighborAvg with
    | none => intro h; simp at h
    | some q =>
      intro h
      have h' : x ∈ (if 0 < q then [q] else []) := h
      split_ifs at h' with hc
      · simp only [List.mem_singleton] at h'; exact h' ▸ hc
      · simp at h'

lemma signals_pos (i : EnsembleInputs) : ∀ x ∈ signals i, 0 < x := by
  intro x hx
  unfold signals at hx
  simp only [List.mem_append] at hx
  rcases hx with h | h
  · exact baselineSignals_pos i x h
  · split_ifs at h with hc
    · simp only [List.mem_singleton] at h; exact h ▸ hc
    · simp at h

lemma fusedPrice_nonneg (i : EnsembleInputs) : 0 ≤ fusedPrice i := by
  rw [fusedPrice_def]
  split_ifs with h1 h2 h3 h4
  · have hne : signals i ≠ [] := by
      intro h; rw [h] at h1; simp at h1
    exact le_median hne (fun x hx => (signals_pos i x hx).le)
  · exact h2.le
  · exact h3.le
  · exact h4.le
  · exact le_refl 0

lemma jsRound2_nonneg {q : ℚ} (h : 0 ≤ q) : 0 ≤ jsRound2 q := by
  unfold jsRound2
  have h0 : (0 : ℤ) ≤ ⌊q * 100 + 1 / 2⌋ := by
    rw [Int.le_floor]
    push_cast
    linarith
  have h1 : (0 : ℚ) ≤ (⌊q * 100 + 1 / 2⌋ : ℚ) := by exact_mod_cast h0
  exact div_nonneg h1 (by norm_num)

end FoundYouADeal

namespace FoundYouADeal

/- ------------------------------------------------------------------
   Claim theorems: the ensemble combiner
   ------------------------------------------------------------------ -/

/-- C1: whenever at least two signal sources pass the positivity and
outlier screens, the fused price is the median of exactly the passing
signals, the median of an even-length list being the mean of the two
middle values after ascending sort, and the returned `finalPrice` being
the 2-decimal rounding of that median; in the spec's example, Llama 40
and GPT 60 with Perplexity 1000 rejected as an outlier fuse to 50. -/
theorem predict_price_median_of_passing_signals (i : EnsembleInputs)
    (h2 : 2 ≤ (signals i).length) :
    fusedPrice i = median (signals i) ∧
    (predictPrice i).finalPrice = jsRound2 (median (signals i)) ∧
    (∀ l : List ℚ, l ≠ [] → l.length % 2 = 0 →
      median l =
        ((sortAsc l).getD (l.length / 2 - 1) 0 +
          (sortAsc l).getD (l.length / 2) 0) / 2) ∧
    signals ⟨40, 60, none, some 1000⟩ = [40, 60] ∧
    (predictPrice ⟨40, 60, none, some 1000⟩).finalPrice = 50 := by
  refine ⟨?_, ?_, ?_, ?_, ?_⟩
  · rw [fusedPrice_def, if_pos h2]
  · show jsRound2 (fusedPrice i) = _
    rw [fusedPrice_def, if_pos h2]
  · intro l hne hpar
    have hlen0 : ¬ l.length = 0 := by simpa [List.length_eq_zero] using hne
    unfold median
    rw [if_neg hlen0, length_sortAsc, if_pos hpar]
  · norm_num [signals, baselineSignals, guardedPerplexity, isReasonableSignal,
      median, sortAsc, List.insertionSort, List.orderedInsert]
  · norm_num [predictPrice, fusedPrice, fusion, signals, baselineSignals,
      guardedPerplexity, isReasonableSignal, jsRound2, median, sortAsc,
      List.insertionSort, List.orderedInsert]

/-- Witness for `predict_price_median_of_passing_signals` at the spec's
concrete example inputs. -/
theorem predict_price_median_of_passing_signals_witness :
    fusedPrice ⟨40, 60, none, some 1000⟩ =
      median (signals ⟨40, 60, none, some 1000⟩) ∧
    (predictPrice ⟨40, 60, none, some 1000⟩).finalPrice = 50 := by
  have h2 : 2 ≤ (signals (⟨40, 60, none, some 1000⟩ : EnsembleInputs)).length := by
    norm_num [signals, baselineSignals, guardedPerplexity, isReasonableSignal,
      median, sortAsc, List.insertionSort, List.orderedInsert]
  have h := predict_price_median_of_passing_signals ⟨40, 60, none, some 1000⟩ h2
  exact ⟨h.1, h.2.2.2.2⟩

/-- C2: when every signal source is invalid (non-positive or NaN), the
returned `finalPrice` is `0`, the logged method label reads "All
failed", and the unrounded fused price is `0`; the call yields this
structured record, not an exception. -/
theorem predict_price_all_failed (i : EnsembleInputs)
    (hl : i.llamaPrice ≤ 0) (hg : i.gptPrice ≤ 0)
    (hn : ∀ q : ℚ, i.neighborAvg = some q → q ≤ 0)
    (hp : ∀ q : ℚ, i.rawPerplexityPrice = some q → q ≤ 0) :
    (predictPrice i).finalPrice = 0 ∧ fusionMethod i = "All failed" ∧
    fusedPrice i = 0 := by
  have hperp : guardedPerplexity i = 0 := by
    unfold guardedPerplexity
    cases hpp : i.rawPerplexityPrice with
    | none => rfl
    | some q =>
      have hq := hp q hpp
      have hfalse : isReasonableSignal q (baselineSignals i) = false := by
        unfold isReasonableSignal
        rw [if_pos hq]
      show (if isReasonableSignal q (baselineSignals i) then q else 0) = 0
      rw [hfalse]
      rfl
  have hbase : baselineSignals i = [] := by
    unfold baselineSignals
    rw [if_neg (not_lt.mpr hl), if_neg (not_lt.mpr hg)]
    cases hna : i.neighborAvg with
    | none => rfl
    | some q =>
      have hq := hn q hna
      show [] ++ [] ++ (if 0 < q then [q] else []) = []
      rw [if_neg (not_lt.mpr hq)]
      rfl
  have hsig : signals i = [] := by
    unfold signals
    rw [hbase, hperp]
    norm_num
  have hfused : fusedPrice i = 0 := by
    rw [fusedPrice_def, hsig]
    rw [if_neg (by norm_num), if_neg (not_lt.mpr hl), if_neg (not_lt.mpr hg),
      if_neg (by rw [hperp]; norm_num : ¬ 0 < guardedPerplexity i)]
  refine ⟨?_, ?_, hfused⟩
  · show jsRound2 (fusedPrice i) = 0
    rw [hfused]
    norm_num [jsRound2]
  · rw [fusionMethod_def, hsig]
    rw [if_neg (by norm_num), if_neg (not_lt.mpr hl), if_neg (not_lt.mpr hg),
      if_neg (by rw [hperp]; norm_num : ¬ 0 < guardedPerplexity i)]

/-- Witness for `predict_price_all_failed`: all four sources invalid. -/
theorem predict_price_all_failed_witness :
    (predictPrice ⟨0, 0, none, none⟩).finalPrice = 0 ∧
    fusionMethod ⟨0, 0, none, none⟩ = "All failed" := by
  have h := predict_price_all_failed ⟨0, 0, none, none⟩ (by norm_num)
    (by norm_num) (by intro q hq; cases hq) (by intro q hq; cases hq)
  exact ⟨h.1, h.2.1⟩

/-- C9: for every run, the returned `finalPrice` equals the fused price
rounded by `Math.round(x*100)/100`, is nonnegative, and is an integer
number of hundredths (exactly 2 decimal places). -/
theorem final_price_nonneg_two_decimals (i : EnsembleInputs) :
    (predictPrice i).finalPrice = jsRound2 (fusedPrice i) ∧
    0 ≤ (predictPrice i).finalPrice ∧
    ∃ n : ℤ, (predictPrice i).finalPrice = (n : ℚ) / 100 := by
  refine ⟨rfl, ?_, ⟨⌊fusedPrice i * 100 + 1 / 2⌋, rfl⟩⟩
  exact jsRound2_nonneg (fusedPrice_nonneg i)

/-- C10: the median of the empty list is `0`; the median of a nonempty
list lies between any lower and any upper bound of the list; hence in
the median branch of the ensemble, the unrounded fused price never
falls below the smallest accepted signal nor exceeds the largest. -/
theorem median_between_min_and_max (l : List ℚ) (m M : ℚ)
    (i : EnsembleInputs) (mi Mi : ℚ)
    (hne : l ≠ []) (hm : ∀ x ∈ l, m ≤ x) (hM : ∀ x ∈ l, x ≤ M)
    (h2 : 2 ≤ (signals i).length)
    (hmi : ∀ x ∈ signals i, mi ≤ x) (hMi : ∀ x ∈ signals i, x ≤ Mi) :
    median ([] : List ℚ) = 0 ∧
    (m ≤ median l ∧ median l ≤ M) ∧
    fusedPrice i = median (signals i) ∧
    mi ≤ fusedPrice i ∧ fusedPrice i ≤ Mi := by
  have hsne : signals i ≠ [] := by
    intro h; rw [h] at h2; simp at h2
  have hfm : fusedPrice i = median (signals i) := by
    rw [fusedPrice_def, if_pos h2]
  refine ⟨by norm_num [median], ⟨le_median hne hm, median_le hne hM⟩, hfm, ?_, ?_⟩
  · rw [hfm]; exact le_median hsne hmi
  · rw [hfm]; exact median_le hsne hMi

/-- Witness for `median_between_min_and_max`: the list `[40, 60]` and a
run whose accepted signals are exactly `40` and `60`. -/
theorem median_between_min_and_max_witness :
    40 ≤ median [40, 60] ∧ median [40, 60] ≤ 60 ∧
    40 ≤ fusedPrice ⟨40, 60, none, none⟩ ∧
    fusedPrice ⟨40, 60, none, none⟩ ≤ 60 := by
  have hsig : signals (⟨40, 60, none, none⟩ : EnsembleInputs) = [40, 60] := by
    norm_num [signals, baselineSignals, guardedPerplexity]
  have h := median_between_min_and_max [40, 60] 40 60 ⟨40, 60, none, none⟩ 40 60
    (by simp)
    (by intro x hx; rcases List.mem_pair.mp hx with h | h <;> rw [h] <;> norm_num)
    (by intro x hx; rcases List.mem_pair.mp hx with h | h <;> rw [h] <;> norm_num)
    (by rw [hsig]; norm_num)
    (by rw [hsig]; intro x hx
        rcases List.mem_pair.mp hx with h | h <;> rw [h] <;> norm_num)
    (by rw [hsig]; intro x hx
        rcases List.mem_pair.mp hx with h | h <;> rw [h] <;> norm_num)
  exact ⟨h.2.1.1, h.2.1.2, h.2.2.2.1, h.2.2.2.2⟩

end FoundYouADeal

namespace FoundYouADeal

/- ------------------------------------------------------------------
   Claim theorems: single-source fallback ladder
   ------------------------------------------------------------------ -/

/-- C3 counterexample: a run in which the neighbor average (50) is the
only positive signal source.  The claim as stated demands a final price
of 50, but the single-source ladder never checks the neighbor average:
the code returns 0 with the "All failed" label. -/
theorem single_positive_neighbor_avg_cex :
    signals ⟨0, 0, some 50, none⟩ = [50] ∧
    (predictPrice ⟨0, 0, some 50, none⟩).finalPrice = 0 ∧
    (predictPrice ⟨0, 0, some 50, none⟩).finalPrice ≠ 50 ∧
    fusionMethod ⟨0, 0, some 50, none⟩ = "All failed" := by
  refine ⟨?_, ?_, ?_, ?_⟩ <;>
    norm_num [signals, baselineSignals, guardedPerplexity, predictPrice,
      fusedPrice, fusionMethod, fusion, jsRound2]

/-- C3 amended: when exactly one signal is in the accepted list, the
single-source ladder checks, in priority order, the hosted model
(Llama), then GPT, then the guarded search-augmented (Perplexity)
price, and the fused price is the winner's value unchanged (the
returned field being its 2-decimal rounding); when the sole positive
signal is the neighbor average, no ladder rung fires and the run
degrades to fused price 0 with method "All failed". -/
theorem single_positive_signal_priority (i : EnsembleInputs)
    (h1 : (signals i).length = 1) :
    (0 < i.llamaPrice →
      fusedPrice i = i.llamaPrice ∧ fusionMethod i = "Llama only") ∧
    (i.llamaPrice ≤ 0 → 0 < i.gptPrice →
      fusedPrice i = i.gptPrice ∧ fusionMethod i = "GPT only") ∧
    (i.llamaPrice ≤ 0 → i.gptPrice ≤ 0 → 0 < guardedPerplexity i →
      fusedPrice i = guardedPerplexity i ∧
        fusionMethod i = "Perplexity only") ∧
    (i.llamaPrice ≤ 0 → i.gptPrice ≤ 0 → guardedPerplexity i ≤ 0 →
      fusedPrice i = 0 ∧ fusionMethod i = "All failed") ∧
    (predictPrice i).finalPrice = jsRound2 (fusedPrice i) := by
  have hn2 : ¬ 2 ≤ (signals i).length := by omega
  refine ⟨?_, ?_, ?_, ?_, rfl⟩
  · intro hl
    constructor
    · rw [fusedPrice_def, if_neg hn2, if_pos hl]
    · rw [fusionMethod_def, if_neg hn2, if_pos hl]
  · intro hl hg
    constructor
    · rw [fusedPrice_def, if_neg hn2, if_neg (not_lt.mpr hl), if_pos hg]
    · rw [fusionMethod_def, if_neg hn2, if_neg (not_lt.mpr hl), if_pos hg]
  · intro hl hg hp
    constructor
    · rw [fusedPrice_def, if_neg hn2, if_neg (not_lt.mpr hl),
        if_neg (not_lt.mpr hg), if_pos hp]
    · rw [fusionMethod_def, if_neg hn2, if_neg (not_lt.mpr hl),
        if_neg (not_lt.mpr hg), if_pos hp]
  · intro hl hg hp
    constructor
    · rw [fusedPrice_def, if_neg hn2, if_neg (not_lt.mpr hl),
        if_neg (not_lt.mpr hg), if_neg (not_lt.mpr hp)]
    · rw [fusionMethod_def, if_neg hn2, if_neg (not_lt.mpr hl),
        if_neg (not_lt.mpr hg), if_neg (not_lt.mpr hp)]

/-- Witness for `single_positive_signal_priority`: search-augmented
85.5 as the sole positive source is used directly, matching the spec's
example value. -/
theorem single_positive_signal_priority_witness :
    (signals ⟨0, 0, none, some (171 / 2)⟩).length = 1 ∧
    fusedPrice ⟨0, 0, none, some (171 / 2)⟩ = 171 / 2 ∧
    (predictPrice ⟨0, 0, none, some (171 / 2)⟩).finalPrice = 171 / 2 := by
  have hperp : guardedPerplexity ⟨0, 0, none, some (171 / 2)⟩ = 171 / 2 := by
    norm_num [guardedPerplexity, isReasonableSignal, baselineSignals]
  have h1 : (signals (⟨0, 0, none, some (171 / 2)⟩ : EnsembleInputs)).length
      = 1 := by
    norm_num [signals, baselineSignals, hperp]
  have h := single_positive_signal_priority ⟨0, 0, none, some (171 / 2)⟩ h1
  have hf := h.2.2.1 (by norm_num) (by norm_num) (by rw [hperp]; norm_num)
  refine ⟨h1, ?_, ?_⟩
  · rw [hf.1, hperp]
  · rw [h.2.2.2.2, hf.1, hperp]
    norm_num [jsRound2]

/- ------------------------------------------------------------------
   Claim theorems: the outlier guard
   ------------------------------------------------------------------ -/

/-- C5 counterexample: against an empty baseline the guard does not
accept unconditionally: the candidate 0 (a parseable but non-positive
value) is rejected even though the baseline is empty. -/
theorem outlier_guard_empty_baseline_cex :
    isReasonableSignal 0 [] = false := by
  norm_num [isReasonableSignal]

/-- C5 amended: non-positive candidates are always rejected, whatever
the baseline; for a strictly positive candidate the guard accepts when
the baseline is empty or has median 0, and otherwise rejects exactly
when the candidate is below 20% of the baseline median or above 500%
of it; in particular candidate 5 against baseline [40, 60] is rejected
and candidate 45 is accepted. -/
theorem outlier_guard_spec (c : ℚ) (baseline : List ℚ) (hc : 0 < c) :
    (baseline = [] → isReasonableSignal c baseline = true) ∧
    (median baseline = 0 → isReasonableSignal c baseline = true) ∧
    (median baseline ≠ 0 → baseline ≠ [] →
      (isReasonableSignal c baseline = false ↔
        (c < median baseline * (1 / 5) ∨ median baseline * 5 < c))) ∧
    (∀ x : ℚ, x ≤ 0 → isReasonableSignal x baseline = false) ∧
    isReasonableSignal 5 [40, 60] = false ∧
    isReasonableSignal 45 [40, 60] = true := by
  have hnc : ¬ c ≤ 0 := not_le.mpr hc
  refine ⟨?_, ?_, ?_, ?_, ?_, ?_⟩
  · intro hb
    unfold isReasonableSignal
    rw [hb]
    rw [if_neg hnc]
    norm_num
  · intro hmed
    unfold isReasonableSignal
    rw [if_neg hnc]
    by_cases hb : baseline.length = 0
    · rw [if_pos hb]
    · rw [if_neg hb, if_pos hmed]
  · intro hmed hb
    have hlb : ¬ baseline.length = 0 := by
      simpa [List.length_eq_zero] using hb
    unfold isReasonableSignal
    rw [if_neg hnc, if_neg hlb, if_neg hmed]
    by_cases hout : c < median baseline * (1 / 5) ∨ median baseline * 5 < c
    · rw [if_pos hout]
      exact iff_of_true rfl hout
    · rw [if_neg hout]
      exact iff_of_false (by simp) hout
  · intro x hx
    unfold isReasonableSignal
    rw [if_pos hx]
  · norm_num [isReasonableSignal, median, sortAsc, List.insertionSort,
      List.orderedInsert]
  · norm_num [isReasonableSignal, median, sortAsc, List.insertionSort,
      List.orderedInsert]

/-- Witness for `outlier_guard_spec` at the spec's concrete example
inputs. -/
theorem outlier_guard_spec_witness :
    isReasonableSignal 45 [40, 60] = true ∧
    isReasonableSignal 5 [40, 60] = false := by
  have h := outlier_guard_spec 45 [40, 60] (by norm_num)
  exact ⟨h.2.2.2.2.2, h.2.2.2.2.1⟩

end FoundYouADeal

namespace FoundYouADeal

/- ------------------------------------------------------------------
   Claim theorems: neighbor quality filter
   ------------------------------------------------------------------ -/

/-- C4: for every distance bound the quality filter retains exactly the
neighbors within the bound (a sub-list of the input, and a neighbor is
retained iff it is in the input with distance at most the bound); the
neighbor average is the arithmetic mean of the retained strictly
positive prices, `0` when there are none; and on the spec's instance
with distances 0.1, 0.4, 0.6, 0.9 at the source bound 0.5, exactly the
first two neighbors are retained and (their prices being positive)
their average is the mean of those two prices. -/
theorem neighbor_quality_filter_spec (bound : ℚ) (ns : List Neighbor)
    (n1 n2 n3 n4 : Neighbor)
    (hd1 : n1.distance = 1 / 10) (hd2 : n2.distance = 2 / 5)
    (hd3 : n3.distance = 3 / 5) (hd4 : n4.distance = 9 / 10)
    (hp1 : 0 < n1.price) (hp2 : 0 < n2.price) :
    (goodNeighborsWithin bound ns).Sublist ns ∧
    (∀ p : Neighbor, p ∈ goodNeighborsWithin bound ns ↔
      (p ∈ ns ∧ p.distance ≤ bound)) ∧
    (neighborPrices (goodNeighborsWithin bound ns) ≠ [] →
      neighborAveragePrice (goodNeighborsWithin bound ns) *
        ((neighborPrices (goodNeighborsWithin bound ns)).length : ℚ) =
        (neighborPrices (goodNeighborsWithin bound ns)).sum) ∧
    (neighborPrices (goodNeighborsWithin bound ns) = [] →
      neighborAveragePrice (goodNeighborsWithin bound ns) = 0) ∧
    goodNeighbors [n1, n2, n3, n4] = [n1, n2] ∧
    neighborAveragePrice [n1, n2] = (n1.price + n2.price) / 2 := by
  refine ⟨List.filter_sublist ns, ?_, ?_, ?_, ?_, ?_⟩
  · intro p
    simp [goodNeighborsWithin, List.mem_filter]
  · intro hne
    have hlen : 0 < (neighborPrices (goodNeighborsWithin bound ns)).length :=
      List.length_pos.mpr hne
    have hlq : ((neighborPrices (goodNeighborsWithin bound ns)).length : ℚ)
        ≠ 0 := Nat.cast_ne_zero.mpr (Nat.pos_iff_ne_zero.mp hlen)
    unfold neighborAveragePrice
    rw [if_pos hlen, div_mul_cancel₀ _ hlq]
  · intro h
    unfold neighborAveragePrice
    rw [h]
    norm_num
  · norm_num [goodNeighbors, goodNeighborsWithin, GOOD_NEIGHBOR_MAX_DISTANCE,
      List.filter_cons, hd1, hd2, hd3, hd4]
  · have hpr : neighborPrices [n1, n2] = [n1.price, n2.price] := by
      simp [neighborPrices, List.filter_cons, hp1, hp2]
    unfold neighborAveragePrice
    rw [hpr]
    norm_num [List.sum_cons]

/-- Witness for `neighbor_quality_filter_spec` at concrete neighbors
with distances 0.1, 0.4, 0.6, 0.9 and prices 10, 30, 7, 9. -/
theorem neighbor_quality_filter_spec_witness :
    goodNeighbors [⟨"a", "a", 10, 1 / 10⟩, ⟨"b", "b", 30, 2 / 5⟩,
        ⟨"c", "c", 7, 3 / 5⟩, ⟨"d", "d", 9, 9 / 10⟩] =
      [⟨"a", "a", 10, 1 / 10⟩, ⟨"b", "b", 30, 2 / 5⟩] ∧
    neighborAveragePrice [⟨"a", "a", 10, 1 / 10⟩, ⟨"b", "b", 30, 2 / 5⟩]
      = 20 := by
  have h := neighbor_quality_filter_spec (1 / 2) []
    ⟨"a", "a", 10, 1 / 10⟩ ⟨"b", "b", 30, 2 / 5⟩
    ⟨"c", "c", 7, 3 / 5⟩ ⟨"d", "d", 9, 9 / 10⟩
    rfl rfl rfl rfl (by norm_num) (by norm_num)
  refine ⟨h.2.2.2.2.1, ?_⟩
  rw [h.2.2.2.2.2]
  norm_num

/- ------------------------------------------------------------------
   Claim theorems: exception propagation out of the GPT branch
   ------------------------------------------------------------------ -/

/-- C8 (code-bug exhibit): when the GPT branch's `try` body throws and
the fallback model call made inside its `catch` block also throws, the
rejection escapes `getGPTPrice`, so `Promise.all` rejects and
`predictPrice` throws instead of returning a structured prediction,
even though the sibling Llama (40) and Perplexity (60) branches carried
good values; by contrast, when the fallback call succeeds the branch
recovers and a structured prediction is returned. -/
theorem predict_price_rejects_when_fallback_throws :
    predictPriceRun 40 .err .err (some 60) = .error () ∧
    predictPriceRun 40 .err (.ok "55") (some 60) ≠ .error () := by
  constructor
  · rfl
  · exact fun h => Except.noConfusion h

end FoundYouADeal

namespace FoundYouADeal

/- ------------------------------------------------------------------
   Claim theorems: the search-augmented (Perplexity) branch
   ------------------------------------------------------------------ -/

/-- C7 counterexample: the first reply holds no digits and the retry
reply parses to 0 (non-positive).  The claim demands NaN when the retry
fails to produce a usable value, but the code returns the parsed value
0 — a number, not NaN. -/
theorem perplexity_retry_returns_zero_cex :
    getPerplexityPrice true true (.reply "no idea") (.reply "0") =
      (some 0, 2) ∧
    some (0 : ℚ) ≠ (none : Option ℚ) := by
  constructor
  · have h1 : parsePrice "no idea" = none := by
      simp +decide [parsePrice, findFirstNumber]
    have h2 : parsePrice "0" = some 0 := by
      simp +decide [parsePrice, findFirstNumber, tokenValue, natOfDigits,
        digitVal, fracDigits, List.takeWhile, List.dropWhile]
    simp [getPerplexityPrice, h1, h2, usableParse]
  · simp

/-- C7 amended: with the feature enabled and an API key present, a
usable first reply (parsing to a positive number) is returned after
exactly one model call; an unusable first reply triggers exactly one
retry (two calls in total), after which a throwing retry or a retry
whose reply holds no parsable number yields NaN, while a retry parsing
to a number returns that number even when it is 0 (non-positive, still
invalid downstream); a throwing first call is caught and yields NaN
after one call; in every case at most two calls are made and no
exception escapes. -/
theorem perplexity_retry_spec (r1 : String) (second : CallOutcome)
    (hu : usableParse (parsePrice r1) = false) :
    (∀ s : String, usableParse (parsePrice s) = true →
      ∀ sec : CallOutcome,
        getPerplexityPrice true true (.reply s) sec = (parsePrice s, 1)) ∧
    (getPerplexityPrice true true (.reply r1) second).2 = 2 ∧
    (second = .throwErr →
      (getPerplexityPrice true true (.reply r1) second).1 = none) ∧
    (∀ r2 : String, second = .reply r2 →
      (getPerplexityPrice true true (.reply r1) second).1 = parsePrice r2) ∧
    getPerplexityPrice true true .throwErr second = (none, 1) ∧
    (∀ e k : Bool, ∀ f s : CallOutcome,
      (getPerplexityPrice e k f s).2 ≤ 2) := by
  refine ⟨?_, ?_, ?_, ?_, ?_, ?_⟩
  · intro s hs sec
    simp [getPerplexityPrice, hs]
  · cases second with
    | throwErr => simp [getPerplexityPrice, hu]
    | reply r2 => simp [getPerplexityPrice, hu]
  · intro h
    subst h
    simp [getPerplexityPrice, hu]
  · intro r2 h
    subst h
    simp [getPerplexityPrice, hu]
  · simp [getPerplexityPrice]
  · intro e k f s
    unfold getPerplexityPrice
    split_ifs
    · norm_num
    · norm_num
    · cases f with
      | throwErr => norm_num
      | reply rf =>
        by_cases huf : usableParse (parsePrice rf) = true
        · simp [huf]
        · cases s with
          | throwErr => simp [huf]
          | reply rs => simp [huf]

/-- Witness for `perplexity_retry_spec`: a digit-free first reply and a
retry reply of "42" make two calls and return 42. -/
theorem perplexity_retry_spec_witness :
    usableParse (parsePrice "no luck") = false ∧
    getPerplexityPrice true true (.reply "no luck") (.reply "42") =
      (some 42, 2) := by
  have h1 : parsePrice "no luck" = none := by
    simp +decide [parsePrice, findFirstNumber]
  have hu : usableParse (parsePrice "no luck") = false := by
    rw [h1]
    rfl
  have h := perplexity_retry_spec "no luck" (.reply "42") hu
  have h42 : parsePrice "42" = some 42 := by
    simp +decide [parsePrice, findFirstNumber, tokenValue, natOfDigits,
      digitVal, fracDigits, List.takeWhile, List.dropWhile]
  refine ⟨hu, ?_⟩
  have hfst := h.2.2.2.1 "42" rfl
  have hsnd := h.2.1
  rw [h42] at hfst
  exact Prod.ext_iff.mpr ⟨hfst, hsnd⟩

end FoundYouADeal

namespace FoundYouADeal

/- ------------------------------------------------------------------
   Claim theorems: the number extractor
   ------------------------------------------------------------------ -/

lemma findFirstNumber_cons (c : Char) (cs : List Char) :
    findFirstNumber (c :: cs) =
      if c.isDigit then
        some (tokenValue ((c :: cs).takeWhile Char.isDigit)
          (fracDigits ((c :: cs).dropWhile Char.isDigit)))
      else findFirstNumber cs := rfl

lemma takeWhile_append_of_head {p : Char → Bool} {l₁ l₂ : List Char}
    (h1 : ∀ c ∈ l₁, p c = true)
    (h2 : ∀ c, l₂.head? = some c → p c = false) :
    (l₁ ++ l₂).takeWhile p = l₁ ∧ (l₁ ++ l₂).dropWhile p = l₂ := by
  induction l₁ with
  | nil =>
    simp only [List.nil_append]
    cases l₂ with
    | nil => simp
    | cons c cs =>
      have hc := h2 c rfl
      rw [List.takeWhile_cons, List.dropWhile_cons, hc]
      simp
  | cons a l ih =>
    have ha : p a = true := h1 a (List.mem_cons_self a l)
    have hrec := ih (fun c hc => h1 c (List.mem_cons_of_mem a hc))
    rw [List.cons_append, List.takeWhile_cons, List.dropWhile_cons, ha]
    simp only [if_true]
    exact ⟨by rw [hrec.1], hrec.2⟩

lemma findFirstNumber_append_nodigit {pre l : List Char}
    (h : ∀ c ∈ pre, c.isDigit = false) :
    findFirstNumber (pre ++ l) = findFirstNumber l := by
  induction pre with
  | nil => rfl
  | cons c cs ih =>
    have hc : c.isDigit = false := h c (List.mem_cons_self c cs)
    rw [List.cons_append, findFirstNumber_cons, hc]
    simp only [Bool.false_eq_true, if_false]
    exact ih (fun x hx => h x (List.mem_cons_of_mem c hx))

lemma findFirstNumber_digits {ds rest : List Char} (hne : ds ≠ [])
    (hd : ∀ c ∈ ds, c.isDigit = true)
    (hr : ∀ c, rest.head? = some c → c.isDigit = false) :
    findFirstNumber (ds ++ rest) =
      some (tokenValue ds (fracDigits rest)) := by
  cases ds with
  | nil => cases hne rfl
  | cons c cs =>
    have hc : c.isDigit = true := hd c (List.mem_cons_self c cs)
    have htd := takeWhile_append_of_head hd hr
    rw [List.cons_append, findFirstNumber_cons, hc]
    simp only [if_true]
    rw [← List.cons_append, htd.1, htd.2]

lemma fracDigits_dot_digits {fs rest : List Char} (hne : fs ≠ [])
    (hf : ∀ c ∈ fs, c.isDigit = true)
    (hr : ∀ c, rest.head? = some c → c.isDigit = false) :
    fracDigits ('.' :: (fs ++ rest)) = fs := by
  cases fs with
  | nil => cases hne rfl
  | cons d fs' =>
    have hd : d.isDigit = true := hf d (List.mem_cons_self d fs')
    have htd := takeWhile_append_of_head hf hr
    show (if ('.' : Char) = '.' ∧ d.isDigit = true then
      (d :: (fs' ++ rest)).takeWhile Char.isDigit else []) = d :: fs'
    rw [if_pos ⟨rfl, hd⟩, ← List.cons_append, htd.1]

lemma fracDigits_no_fraction {rest : List Char}
    (hdot : ∀ d r, rest = '.' :: d :: r → d.isDigit = false) :
    fracDigits rest = [] := by
  cases rest with
  | nil => rfl
  | cons c r2 =>
    cases r2 with
    | nil => rfl
    | cons d r3 =>
      show (if c = '.' ∧ d.isDigit = true then
        (d :: r3).takeWhile Char.isDigit else []) = []
      rw [if_neg]
      rintro ⟨hc, hdig⟩
      subst hc
      rw [hdot d r3 rfl] at hdig
      exact Bool.false_ne_true hdig

lemma findFirstNumber_eq_none_iff (l : List Char) :
    findFirstNumber l = none ↔ ∀ c ∈ l, c.isDigit = false := by
  induction l with
  | nil => simp [findFirstNumber]
  | cons c cs ih =>
    rw [findFirstNumber_cons]
    by_cases hc : c.isDigit = true
    · rw [hc]
      simp only [if_true]
      refine iff_of_false (by simp) ?_
      intro h
      rw [h c (List.mem_cons_self c cs)] at hc
      exact Bool.false_ne_true hc
    · have hc' : c.isDigit = false := by
        cases hb : c.isDigit
        · rfl
        · exact absurd hb hc
      rw [hc']
      simp only [Bool.false_eq_true, if_false]
      rw [ih]
      constructor
      · intro h x hx
        rcases List.mem_cons.mp hx with rfl | hx'
        · exact hc'
        · exact h x hx'
      · intro h x hx
        exact h x (List.mem_cons_of_mem c hx)

/-- C6: the number extractor is total and structured over `Option`
(`none` is the NaN sentinel, so nothing can escape as an exception):
empty input yields NaN; the result is NaN exactly when the text holds
no digit, i.e. no substring matching the integer-or-decimal pattern;
and on every text decomposing as a digit-free prefix, a maximal digit
run, an optional dot-plus-digits fraction, and a remainder, the result
is the numeric value of that first matched substring. -/
theorem parse_price_first_number_spec :
    parsePrice "" = none ∧
    (∀ s : String, parsePrice s = none ↔ ∀ c ∈ s.data, c.isDigit = false) ∧
    (∀ pre ds fs rest : List Char,
      (∀ c ∈ pre, c.isDigit = false) → ds ≠ [] →
      (∀ c ∈ ds, c.isDigit = true) → fs ≠ [] →
      (∀ c ∈ fs, c.isDigit = true) →
      (∀ c, rest.head? = some c → c.isDigit = false) →
      parsePrice (String.mk (pre ++ ds ++ '.' :: (fs ++ rest))) =
        some ((natOfDigits ds : ℚ) + (natOfDigits fs : ℚ) / 10 ^ fs.length)) ∧
    (∀ pre ds rest : List Char,
      (∀ c ∈ pre, c.isDigit = false) → ds ≠ [] →
      (∀ c ∈ ds, c.isDigit = true) →
      (∀ c, rest.head? = some c → c.isDigit = false) →
      (∀ d r, rest = '.' :: d :: r → d.isDigit = false) →
      parsePrice (String.mk (pre ++ ds ++ rest)) =
        some (natOfDigits ds : ℚ)) := by
  refine ⟨rfl, ?_, ?_, ?_⟩
  · intro s
    unfold parsePrice
    by_cases hs : s.data = []
    · rw [if_pos hs, hs]
      simp
    · rw [if_neg hs]
      exact findFirstNumber_eq_none_iff s.data
  · intro pre ds fs rest hpre hdne hd hfne hf hr
    have hne : (pre ++ ds ++ '.' :: (fs ++ rest)) ≠ [] := by
      intro h
      rcases List.append_eq_nil.mp h with ⟨-, h2⟩
      exact List.cons_ne_nil _ _ h2
    show (if (pre ++ ds ++ '.' :: (fs ++ rest)) = [] then none
      else findFirstNumber (pre ++ ds ++ '.' :: (fs ++ rest))) = _
    rw [if_neg hne, List.append_assoc,
      findFirstNumber_append_nodigit hpre,
      findFirstNumber_digits hdne hd
        (by intro c hc; injection hc with h; rw [← h]; rfl),
      fracDigits_dot_digits hfne hf hr]
    rfl
  · intro pre ds rest hpre hdne hd hr hdot
    have hne : (pre ++ ds ++ rest) ≠ [] := by
      intro h
      rcases List.append_eq_nil.mp h with ⟨h1, -⟩
      rcases List.append_eq_nil.mp h1 with ⟨-, h2⟩
      exact hdne h2
    show (if (pre ++ ds ++ rest) = [] then none
      else findFirstNumber (pre ++ ds ++ rest)) = _
    rw [if_neg hne, List.append_assoc,
      findFirstNumber_append_nodigit hpre,
      findFirstNumber_digits hdne hd hr,
      fracDigits_no_fraction hdot]
    show some (tokenValue ds []) = _
    unfold tokenValue natOfDigits
    norm_num

/-- Witness for `parse_price_first_number_spec`: the empty reply parses
to NaN, and the text made of a digit-free prefix, digits 530, fraction
99 and a trailing remainder parses to 530.99. -/
theorem parse_price_first_number_spec_witness :
    parsePrice "" = none ∧
    parsePrice (String.mk ['$', ' ', '5', '3', '0', '.', '9', '9', ' ', 'x'])
      = some (53099 / 100) := by
  have h := parse_price_first_number_spec
  refine ⟨h.1, ?_⟩
  have h3 := h.2.2.1 ['$', ' '] ['5', '3', '0'] ['9', '9'] [' ', 'x']
    (by decide) (by decide) (by decide) (by decide) (by decide)
    (by intro c hc; injection hc with hh; rw [← hh]; rfl)
  have hlist : (['$', ' '] ++ ['5', '3', '0'] ++ '.' :: (['9', '9'] ++ [' ', 'x']))
      = ['$', ' ', '5', '3', '0', '.', '9', '9', ' ', 'x'] := rfl
  rw [hlist] at h3
  rw [h3]
  have h530 : natOfDigits ['5', '3', '0'] = 530 := by decide
  have h99 : natOfDigits ['9', '9'] = 99 := by decide
  rw [h530, h99]
  norm_num

end FoundYouADeal
